import Mathlib

/-!
Verification of the routing-convergence observer (`converge_analyze/main.go`
and the C++ port in `converge_analyze_cpp/`).

The Go monitor is embedded shallowly: the clock reads (`time.Now().UnixMilli()`)
become explicit `now : Int` parameters, the mutex-guarded in-place mutations
become pure state-passing functions `Monitor → Monitor × List LogRecord`, and
the `map[string]interface{}` attribute maps become association lists over a
small value type.  Locks, goroutines and the netlink wire format are elided;
each handler models the body that runs under the session lock, in the order the
source executes it.
-/

namespace ConvergeAnalyze

/-- Value of a Go `map[string]interface{}` attribute entry: the monitor only
ever stores strings, booleans and integers in these maps. -/
inductive AttrValue where
  | str (s : String)
  | boolv (b : Bool)
  | intv (i : Int)
deriving DecidableEq

/-- An attribute map (`map[string]interface{}` in the source), as an
association list; lookups take the first binding, matching Go's unique keys. -/
abbrev Info := List (String × AttrValue)

/-- `info[key].(string)` with its `ok` flag: `some s` iff the key is present
and holds a string. -/
def getStr (info : Info) (key : String) : Option String :=
  match info.lookup key with
  | some (AttrValue.str s) => some s
  | _ => none

/-- `info[key].(bool)` with its `ok` flag: `some b` iff the key is present and
holds a boolean. -/
def getBool (info : Info) (key : String) : Option Bool :=
  match info.lookup key with
  | some (AttrValue.boolv b) => some b
  | _ => none

/-- `info[key].(string)` where the source asserts without checking `ok`
(defaulting the panic case to `""` in the model). -/
def getStrD (info : Info) (key : String) : String :=
  (getStr info key).getD ""

/-- `RouteEvent` from `main.go`: one in-session event. -/
structure RouteEvent where
  timestamp : Int
  type : String
  info : Info
  offsetFromNetem : Int
deriving DecidableEq

/-- `QdiscEvent` from `main.go`: one qdisc observation kept in the ring
buffer of recent qdisc events. -/
structure QdiscEvent where
  timestamp : Int
  type : String
  info : Info
deriving DecidableEq

/-- `ConvergenceSession` from `main.go`. -/
structure ConvergenceSession where
  sessionID : Int
  netemEventTime : Int
  netemInfo : Info
  routeEvents : List RouteEvent
  lastRouteEventTime : Option Int
  convergenceTime : Option Int
  isConverged : Bool
  convergenceDetectedTime : Option Int
  convergenceCheckCount : Int
deriving DecidableEq

/-- `NewConvergenceSession`. -/
def NewConvergenceSession (sessionID : Int) (netemEventTime : Int)
    (netemInfo : Info) : ConvergenceSession :=
  { sessionID := sessionID
    netemEventTime := netemEventTime
    netemInfo := netemInfo
    routeEvents := []
    lastRouteEventTime := none
    convergenceTime := none
    isConverged := false
    convergenceDetectedTime := none
    convergenceCheckCount := 0 }

/-- `ConvergenceSession.AddRouteEvent`. -/
def ConvergenceSession.addRouteEvent (cs : ConvergenceSession)
    (timestamp : Int) (eventType : String) (routeInfo : Info) :
    ConvergenceSession :=
  { cs with
    routeEvents := cs.routeEvents ++
      [{ timestamp := timestamp
         type := eventType
         info := routeInfo
         offsetFromNetem := timestamp - cs.netemEventTime }]
    lastRouteEventTime := some timestamp }

/-- `ConvergenceSession.CheckConvergence`; the `time.Now().UnixMilli()` read
is the explicit `currentTime` argument.  Returns the updated session and the
boolean result. -/
def ConvergenceSession.checkConvergence (cs : ConvergenceSession)
    (quietPeriodMs currentTime : Int) : ConvergenceSession × Bool :=
  if cs.isConverged then (cs, true)
  else
    let quietTime : Int :=
      match cs.lastRouteEventTime with
      | none => currentTime - cs.netemEventTime
      | some t => currentTime - t
    let cs := { cs with convergenceCheckCount := cs.convergenceCheckCount + 1 }
    if quietTime ≥ quietPeriodMs then
      let convergenceTime : Int :=
        match cs.lastRouteEventTime with
        | some t => t - cs.netemEventTime
        | none => 0
      ({ cs with
          isConverged := true
          convergenceDetectedTime := some currentTime
          convergenceTime := some convergenceTime }, true)
    else (cs, false)

/-- `ConvergenceSession.GetSessionDuration` (the clock read is `now`). -/
def ConvergenceSession.getSessionDuration (cs : ConvergenceSession)
    (now : Int) : Int :=
  match cs.convergenceDetectedTime with
  | some t => t - cs.netemEventTime
  | none => now - cs.netemEventTime

end ConvergeAnalyze

namespace ConvergeAnalyze

/-- The structured records the monitor hands to the log sink
(`logStructuredDataAsync` call sites in `main.go`), abstracted to the fields
the session engine computes; router name, user and formatted timestamps are
constant per process and elided. -/
inductive LogRecord where
  | sessionStarted (sessionID : Int) (triggerSource : String)
      (triggerEventType : String) (triggerInfo : Info)
  | netemDetected (netemEventType : String) (qdiscInfo : Info)
  | routeEvent (sessionID : Int) (routeEventType : String)
      (routeEventNumber : Int) (sessionEventNumber : Nat)
      (offsetFromTriggerMs : Int) (routeInfo : Info)
  | sessionCompleted (sessionID : Int) (convergenceTimeMs : Option Int)
      (routeEventsCount : Nat) (sessionDurationMs : Int)
      (convergenceThresholdMs : Int) (netemInfo : Info)
deriving DecidableEq

/-- `NetemConvergenceMonitor` from `main.go`, restricted to the session-engine
state; `state` is the source's string-valued field (`"IDLE"`/`"MONITORING"`). -/
structure Monitor where
  routerName : String
  convergenceThresholdMs : Int
  currentSession : Option ConvergenceSession
  completedSessions : List ConvergenceSession
  sessionCounter : Int
  state : String
  totalRouteEvents : Int
  totalNetemTriggers : Int
  totalRouteTriggers : Int
  recentQdiscEvents : List QdiscEvent
deriving DecidableEq

/-- `NewNetemConvergenceMonitor` (logging setup elided). -/
def NewNetemConvergenceMonitor (convergenceThresholdMs : Int)
    (routerName : String) : Monitor :=
  { routerName := routerName
    convergenceThresholdMs := convergenceThresholdMs
    currentSession := none
    completedSessions := []
    sessionCounter := 0
    state := "IDLE"
    totalRouteEvents := 0
    totalNetemTriggers := 0
    totalRouteTriggers := 0
    recentQdiscEvents := [] }

/-- `NetemConvergenceMonitor.isNetemRelatedEvent`: netem-typed events, and
delete events whose interface recently carried a netem qdisc, are
netem-related. -/
def Monitor.isNetemRelatedEvent (ncm : Monitor) (qdiscInfo : Info)
    (eventType : String) : Bool :=
  if getBool qdiscInfo "is_netem" = some true then true
  else if eventType = "QDISC_DEL" then
    let interfaceName := getStrD qdiscInfo "interface"
    ncm.recentQdiscEvents.reverse.any fun recentEvent =>
      getStr recentEvent.info "interface" = some interfaceName &&
      getBool recentEvent.info "is_netem" = some true
  else false

/-- The ring-buffer push inlined in `handleQdiscEventFromTC`
(`main.go:425-428`): append, then drop the oldest entry past 20. -/
def pushRecentQdisc (buf : List QdiscEvent) (event : QdiscEvent) :
    List QdiscEvent :=
  let buf := buf ++ [event]
  if buf.length > 20 then buf.drop 1 else buf

/-- The session-creating tail of `handleTriggerEvent` (`main.go:374-398`):
bump the counter, install the new session, flip to `MONITORING`, count the
trigger and emit `session_started`. -/
def Monitor.startNewSession (ncm : Monitor) (timestamp : Int)
    (eventType : String) (triggerInfo : Info) (triggerSource : String) :
    Monitor × List LogRecord :=
  let counter := ncm.sessionCounter + 1
  let ncm :=
    { ncm with
      sessionCounter := counter
      currentSession :=
        some (NewConvergenceSession counter timestamp triggerInfo)
      state := "MONITORING" }
  let ncm :=
    if triggerSource = "netem" then
      { ncm with totalNetemTriggers := ncm.totalNetemTriggers + 1 }
    else
      { ncm with totalRouteTriggers := ncm.totalRouteTriggers + 1 }
  (ncm,
   [LogRecord.sessionStarted counter triggerSource eventType triggerInfo])

/-- `NetemConvergenceMonitor.handleTriggerEvent`: starts a new session unless
one is in progress and unconverged, in which case the event is dropped with a
console notice. -/
def Monitor.handleTriggerEvent (ncm : Monitor) (timestamp : Int)
    (eventType : String) (triggerInfo : Info) (triggerSource : String) :
    Monitor × List LogRecord :=
  match ncm.currentSession with
  | some cs =>
    if cs.isConverged = false then (ncm, [])
    else ncm.startNewSession timestamp eventType triggerInfo triggerSource
  | none => ncm.startNewSession timestamp eventType triggerInfo triggerSource

/-- `NetemConvergenceMonitor.handleQdiscEventFromTC`, after qdisc parsing:
cache the observation in the ring buffer, then — if netem-related — either
append it to the active session or treat it as a trigger. -/
def Monitor.handleQdiscEventFromTC (ncm : Monitor) (currentTime : Int)
    (qdiscInfo : Info) (eventType : String) : Monitor × List LogRecord :=
  let event : QdiscEvent :=
    { timestamp := currentTime, type := eventType, info := qdiscInfo }
  let ncm :=
    { ncm with recentQdiscEvents := pushRecentQdisc ncm.recentQdiscEvents event }
  if ncm.isNetemRelatedEvent qdiscInfo eventType then
    let netemRec := LogRecord.netemDetected eventType qdiscInfo
    match ncm.currentSession with
    | some cs =>
      if ncm.state = "MONITORING" && cs.isConverged = false then
        let label := "Netem事件(" ++ eventType ++ ")"
        let cs' := cs.addRouteEvent currentTime label qdiscInfo
        let ncm :=
          { ncm with
            currentSession := some cs'
            totalRouteEvents := ncm.totalRouteEvents + 1 }
        let offset := currentTime - cs'.netemEventTime
        (ncm,
         [netemRec,
          LogRecord.routeEvent cs'.sessionID label ncm.totalRouteEvents
            cs'.routeEvents.length offset qdiscInfo])
      else
        let r := ncm.handleTriggerEvent currentTime eventType qdiscInfo "netem"
        (r.1, netemRec :: r.2)
    | none =>
      let r := ncm.handleTriggerEvent currentTime eventType qdiscInfo "netem"
      (r.1, netemRec :: r.2)
  else (ncm, [])

/-- The trigger-info map built in `handleRouteEvent` for route triggers
(`main.go:556-579`). -/
def routeTriggerInfo (triggerType : String) (routeInfo : Info) : Info :=
  [("type", AttrValue.str triggerType),
   ("dst", (routeInfo.lookup "dst").getD (AttrValue.str "N/A")),
   ("interface", (routeInfo.lookup "interface").getD (AttrValue.str "N/A")),
   ("gateway", (routeInfo.lookup "gateway").getD (AttrValue.str "N/A"))]

/-- `NetemConvergenceMonitor.handleRouteEvent`: in `IDLE` a route add/delete
becomes a trigger; in `MONITORING` it is appended to the current session. -/
def Monitor.handleRouteEvent (ncm : Monitor) (timestamp : Int)
    (eventType : String) (routeInfo : Info) : Monitor × List LogRecord :=
  if (eventType = "路由添加" || eventType = "路由删除") && ncm.state = "IDLE" then
    let triggerType := if eventType = "路由添加" then "route_add" else "route_del"
    ncm.handleTriggerEvent timestamp eventType
      (routeTriggerInfo triggerType routeInfo) "route"
  else
    match ncm.currentSession with
    | none => (ncm, [])
    | some cs =>
      if ncm.state ≠ "MONITORING" then (ncm, [])
      else
        let cs' := cs.addRouteEvent timestamp eventType routeInfo
        let ncm :=
          { ncm with
            currentSession := some cs'
            totalRouteEvents := ncm.totalRouteEvents + 1 }
        let offset := timestamp - cs'.netemEventTime
        (ncm,
         [LogRecord.routeEvent cs'.sessionID eventType ncm.totalRouteEvents
            cs'.routeEvents.length offset routeInfo])

/-- `NetemConvergenceMonitor.finishCurrentSession` (clock read is `now`). -/
def Monitor.finishCurrentSession (ncm : Monitor) (now : Int) :
    Monitor × List LogRecord :=
  match ncm.currentSession with
  | none => (ncm, [])
  | some session =>
    let ncm :=
      { ncm with
        completedSessions := ncm.completedSessions ++ [session]
        currentSession := none
        state := "IDLE" }
    (ncm,
     [LogRecord.sessionCompleted session.sessionID session.convergenceTime
        session.routeEvents.length (session.getSessionDuration now)
        ncm.convergenceThresholdMs session.netemInfo])

/-- `NetemConvergenceMonitor.forceFinishSession`: force a convergence check
with a zero quiet period, then finish the session. -/
def Monitor.forceFinishSession (ncm : Monitor) (now : Int) :
    Monitor × List LogRecord :=
  match ncm.currentSession with
  | none => (ncm, [])
  | some cs =>
    let cs' := (cs.checkConvergence 0 now).1
    let ncm := { ncm with currentSession := some cs' }
    ncm.finishCurrentSession now

/-- One firing of the `convergenceChecker` ticker (`main.go:627-638`): check
convergence on the active session and finish it when converged. -/
def Monitor.convergenceTick (ncm : Monitor) (now : Int) :
    Monitor × List LogRecord :=
  match ncm.currentSession with
  | none => (ncm, [])
  | some cs =>
    if ncm.state = "MONITORING" && cs.isConverged = false then
      let r := cs.checkConvergence ncm.convergenceThresholdMs now
      let ncm := { ncm with currentSession := some r.1 }
      if r.2 then ncm.finishCurrentSession now else (ncm, [])
    else (ncm, [])

/-- `syscall.RTM_NEWQDISC`. -/
def RTM_NEWQDISC : Nat := 36

/-- `syscall.RTM_DELQDISC`. -/
def RTM_DELQDISC : Nat := 37

/-- `syscall.RTM_GETQDISC`. -/
def RTM_GETQDISC : Nat := 38

/-- A `tc.Object` as far as the monitor reads it. -/
structure TcObject where
  ifindex : Int
  handle : Int
  parent : Int
  kind : String
deriving DecidableEq

/-- `parseQdiscInfoFromTC`; interface-index resolution (`getInterfaceName`)
is environment-dependent, so the resolved name is the `interfaceName`
argument. -/
def parseQdiscInfoFromTC (obj : TcObject) (interfaceName : String) : Info :=
  let qdiscType := if obj.kind ≠ "" then obj.kind else "unknown"
  [("interface", AttrValue.str interfaceName),
   ("ifindex", AttrValue.intv obj.ifindex),
   ("handle", AttrValue.intv obj.handle),
   ("parent", AttrValue.intv obj.parent),
   ("kind", AttrValue.str qdiscType),
   ("is_netem", AttrValue.boolv (qdiscType = "netem"))]

/-- The TC event hook `hookFunc` installed by `monitorEvents`
(`main.go:746-767`): drop `noqueue` qdiscs, map the netlink action to an
event-type label, and hand the event to `handleQdiscEventFromTC`. -/
def Monitor.hookFunc (ncm : Monitor) (now : Int) (action : Nat)
    (obj : TcObject) (interfaceName : String) : Monitor × List LogRecord :=
  if obj.kind = "noqueue" then (ncm, [])
  else if action = RTM_NEWQDISC then
    ncm.handleQdiscEventFromTC now (parseQdiscInfoFromTC obj interfaceName)
      "QDISC_ADD"
  else if action = RTM_DELQDISC then
    ncm.handleQdiscEventFromTC now (parseQdiscInfoFromTC obj interfaceName)
      "QDISC_DEL"
  else if action = RTM_GETQDISC then
    ncm.handleQdiscEventFromTC now (parseQdiscInfoFromTC obj interfaceName)
      "QDISC_GET"
  else (ncm, [])

/-- `idle_time` of the spec's convergence rule: time since the last event, or
since the trigger when no event arrived yet. -/
def idleTime (cs : ConvergenceSession) (now : Int) : Int :=
  match cs.lastRouteEventTime with
  | some t => now - t
  | none => now - cs.netemEventTime

/-- The `state = Monitoring ⇔ current_session.is_some()` invariant of the
spec (§3.2).  That at most one session is current is structural here: the
embedding keeps the source's single `currentSession` pointer as an `Option`. -/
def stateInv (m : Monitor) : Prop :=
  m.state = "MONITORING" ↔ m.currentSession.isSome = true

/-- Summary-statistics fields of the `monitoring_completed` record that are
derived from the completed sessions' convergence times
(`printStatistics`, `main.go:906-928`).  A `none` field models a key the
source never adds to the map (the source omits these keys instead of writing
nulls).  The source stores `math.Sqrt(variance)` in
`convergence_std_deviation_ms`; a floating-point square root has no exact
executable model, so the field is represented by the sample variance whose
square root the source emits. -/
structure ConvergenceStats where
  fastest_convergence_ms : Option Int
  slowest_convergence_ms : Option Int
  avg_convergence_time_ms : Option ℚ
  convergence_std_deviation_sq : Option ℚ
deriving DecidableEq

/-- The statistics block of `printStatistics` (`main.go:906-928`): sort the
convergence times ascending (`sort.Slice`), takes the first and last as
fastest/slowest, the mean when nonempty, and the sample variance when at
least two samples exist. -/
def buildConvergenceStats (convergenceTimes : List Int) : ConvergenceStats :=
  if convergenceTimes.length > 0 then
    let sorted := List.insertionSort (· ≤ ·) convergenceTimes
    let sum : Int := convergenceTimes.sum
    let mean : ℚ := (sum : ℚ) / (convergenceTimes.length : ℚ)
    { fastest_convergence_ms := sorted.head?
      slowest_convergence_ms := sorted.getLast?
      avg_convergence_time_ms := some mean
      convergence_std_deviation_sq :=
        if convergenceTimes.length > 1 then
          some ((convergenceTimes.map fun t => ((t : ℚ) - mean) ^ 2).sum /
            ((convergenceTimes.length : ℚ) - 1))
        else none }
  else
    { fastest_convergence_ms := none
      slowest_convergence_ms := none
      avg_convergence_time_ms := none
      convergence_std_deviation_sq := none }

/-- Arithmetic mean of a list of integers (specification side). -/
def listMean (l : List Int) : ℚ := (l.sum : ℚ) / (l.length : ℚ)

/-- Sample variance of a list of integers (specification side): squared
deviations from the mean divided by `n − 1`. -/
def sampleVariance (l : List Int) : ℚ :=
  ((l.map fun t => ((t : ℚ) - listMean l) ^ 2).sum) / ((l.length : ℚ) - 1)

end ConvergeAnalyze

namespace ConvergeAnalyzeCpp

/-!
The C++ port (`converge_analyze_cpp/`): the record sink (`Logger`) and its
JSON rendering, embedded at byte level.  A C++ `std::string` is a list of
byte values; only the sink's observable behaviour (queue contents, stdout and
stderr lines, emitted byte strings) is modelled.
-/

/-- A C++ `std::string` as its list of byte values. -/
abbrev ByteStr := List Nat

/-- Byte string of an ASCII Lean string literal. -/
def strBytes (s : String) : ByteStr := s.toList.map Char.toNat

/-- `JsonValue` from `logger.h`.  The `DOUBLE` alternative is floating-point
and unused by the records the claims quantify over, so it is not modelled. -/
inductive JsonValue where
  | str (s : ByteStr)
  | int64 (i : Int)
  | boolean (b : Bool)
deriving DecidableEq

/-- `JsonObject` from `logger.h`: key/value pairs.  The source's
`unordered_map` iterates in an unspecified order; the model keeps insertion
order (validity of the rendered JSON does not depend on the order). -/
abbrev JsonObject := List (ByteStr × JsonValue)

/-- One hex digit, lowercase, as `std::hex` prints it. -/
def hexDigitByte (n : Nat) : Nat := if n < 10 then 0x30 + n else 0x57 + n

/-- Hex rendering of `std::hex << std::setw(4) << std::setfill('0') << v`:
the digits of `v`, zero-filled on the left to at least four. -/
def hexPad4 (v : Nat) : ByteStr :=
  let ds := (Nat.toDigits 16 v).map Char.toNat
  List.replicate (4 - ds.length) 0x30 ++ ds

/-- One step of `Logger::escape_json_string` (part_001:174-201).  The loop
variable is a (signed) `char`, so bytes `0x80`-`0xff` satisfy `c < 0x20` and
are printed through the `\u` branch with their sign-extended 32-bit pattern. -/
def escapeJsonByte (b : Nat) : ByteStr :=
  if b = 0x22 then [0x5c, 0x22]
  else if b = 0x5c then [0x5c, 0x5c]
  else if b = 0x08 then [0x5c, 0x62]
  else if b = 0x0c then [0x5c, 0x66]
  else if b = 0x0a then [0x5c, 0x6e]
  else if b = 0x0d then [0x5c, 0x72]
  else if b = 0x09 then [0x5c, 0x74]
  else if b < 0x20 then [0x5c, 0x75] ++ hexPad4 b
  else if 0x80 ≤ b then [0x5c, 0x75] ++ hexPad4 (0xFFFFFF00 + b)
  else [b]

/-- `Logger::escape_json_string`. -/
def escapeJsonString (s : ByteStr) : ByteStr :=
  (s.map escapeJsonByte).flatten

/-- `std::to_string` on an `int64_t`. -/
def intToBytes (i : Int) : ByteStr := strBytes (toString i)

/-- `Logger::json_value_to_string` (part_001:156-172). -/
def jsonValueToString (v : JsonValue) : ByteStr :=
  match v with
  | JsonValue.str s => [0x22] ++ escapeJsonString s ++ [0x22]
  | JsonValue.int64 i => intToBytes i
  | JsonValue.boolean b => if b then strBytes "true" else strBytes "false"

/-- `Logger::json_to_string` (part_001:137-154): braces around
comma-separated `"key":value` pairs, keys and string values escaped. -/
def jsonToString (obj : JsonObject) : ByteStr :=
  [0x7b] ++
    (List.intercalate [0x2c]
      (obj.map fun pair =>
        [0x22] ++ escapeJsonString pair.1 ++ [0x22, 0x3a] ++
          jsonValueToString pair.2)) ++
  [0x7d]

/-- The nested-map serialization used for `trigger_info`, `route_info` and
`netem_info` (part_001:274-284 and the analogous blocks): keys and values
concatenated raw, with NO escaping. -/
def serializeInfoRaw (info : List (ByteStr × ByteStr)) : ByteStr :=
  [0x7b] ++
    (List.intercalate [0x2c]
      (info.map fun pair =>
        [0x22] ++ pair.1 ++ [0x22, 0x3a, 0x22] ++ pair.2 ++ [0x22])) ++
  [0x7d]

/-- `Logger::create_event_log` (the clock-derived timestamp is the
`timestampStr` argument). -/
def createEventLog (eventType routerName userName timestampStr : ByteStr) :
    JsonObject :=
  [(strBytes "event_type", JsonValue.str eventType),
   (strBytes "router_name", JsonValue.str routerName),
   (strBytes "user", JsonValue.str userName),
   (strBytes "timestamp", JsonValue.str timestampStr)]

/-- `Logger::create_session_start_log` (part_001:263-287): the nested
`trigger_info` map is stored as a STRING value holding its raw-concatenated
serialization. -/
def createSessionStartLog (routerName : ByteStr) (sessionId : Int)
    (triggerSource triggerEventType : ByteStr)
    (triggerInfo : List (ByteStr × ByteStr))
    (userName timestampStr : ByteStr) : JsonObject :=
  createEventLog (strBytes "session_started") routerName userName
      timestampStr ++
    [(strBytes "session_id", JsonValue.int64 sessionId),
     (strBytes "trigger_source", JsonValue.str triggerSource),
     (strBytes "trigger_event_type", JsonValue.str triggerEventType),
     (strBytes "trigger_info", JsonValue.str (serializeInfoRaw triggerInfo))]

/-- JSON insignificant whitespace. -/
def isWsByte (b : Nat) : Bool := b = 0x20 || b = 0x09 || b = 0x0a || b = 0x0d

/-- Skip insignificant whitespace. -/
def skipWs : List Nat → List Nat
  | [] => []
  | b :: rest => if isWsByte b then skipWs rest else b :: rest

/-- ASCII decimal digit. -/
def isDigitByte (b : Nat) : Bool := 0x30 ≤ b && b ≤ 0x39

/-- ASCII hexadecimal digit (either case). -/
def isHexDigitByte (b : Nat) : Bool :=
  (0x30 ≤ b && b ≤ 0x39) || (0x61 ≤ b && b ≤ 0x66) || (0x41 ≤ b && b ≤ 0x46)

/-- Consume one or more decimal digits. -/
def takeDigits : List Nat → Option (List Nat)
  | [] => none
  | b :: rest =>
    if isDigitByte b then some (rest.dropWhile isDigitByte) else none

/-- Consume the body of a JSON number after any leading minus sign: digits
with an optional fraction part (the emitted records never carry exponents,
so the checked grammar omits them; this only makes the checker stricter). -/
def parseNumberBody (s : List Nat) : Option (List Nat) :=
  match takeDigits s with
  | none => none
  | some r =>
    match r with
    | b :: rest =>
      if b = 0x2e then takeDigits rest else some r
    | [] => some []

/-- Consume the rest of a JSON string literal, after the opening quote:
unescaped bytes must not be control bytes, escapes are the standard
single-character ones plus `\uXXXX` with exactly four hex digits. -/
def parseStringRest : List Nat → Option (List Nat)
  | [] => none
  | b :: rest =>
    if b = 0x22 then some rest
    else if b = 0x5c then
      match rest with
      | [] => none
      | e :: rest2 =>
        if e = 0x75 then
          match rest2 with
          | h1 :: h2 :: h3 :: h4 :: rest4 =>
            if isHexDigitByte h1 && isHexDigitByte h2 && isHexDigitByte h3 &&
                isHexDigitByte h4 then
              parseStringRest rest4
            else none
          | _ => none
        else if e = 0x22 || e = 0x5c || e = 0x2f || e = 0x62 || e = 0x66 ||
            e = 0x6e || e = 0x72 || e = 0x74 then
          parseStringRest rest2
        else none
    else if b < 0x20 then none
    else parseStringRest rest

/-- Nonterminals of the JSON checker: a value; the part of an object after
`{` and whitespace; its member list; the part of an array after `[` and
whitespace; its element list. -/
inductive JsonPiece where
  | value
  | objectBody
  | members
  | arrayBody
  | elements
deriving DecidableEq

/-- Fuelled recursive-descent JSON checker over byte strings, structurally
recursive on the fuel so it evaluates by kernel reduction.  Consumes one
piece of the given kind and returns the remaining bytes on success. -/
def parseJson : Nat → JsonPiece → List Nat → Option (List Nat)
  | 0, _, _ => none
  | fuel + 1, JsonPiece.value, s =>
    match s with
    | [] => none
    | b :: rest =>
      if b = 0x22 then parseStringRest rest
      else if b = 0x7b then parseJson fuel JsonPiece.objectBody (skipWs rest)
      else if b = 0x5b then parseJson fuel JsonPiece.arrayBody (skipWs rest)
      else if b = 0x74 then
        if (strBytes "rue").isPrefixOf rest then some (rest.drop 3) else none
      else if b = 0x66 then
        if (strBytes "alse").isPrefixOf rest then some (rest.drop 4) else none
      else if b = 0x6e then
        if (strBytes "ull").isPrefixOf rest then some (rest.drop 3) else none
      else if b = 0x2d then parseNumberBody rest
      else if isDigitByte b then parseNumberBody s
      else none
  | fuel + 1, JsonPiece.objectBody, s =>
    match s with
    | [] => none
    | b :: rest =>
      if b = 0x7d then some rest
      else parseJson fuel JsonPiece.members s
  | fuel + 1, JsonPiece.members, s =>
    match s with
    | [] => none
    | b :: rest =>
      if b = 0x22 then
        match parseStringRest rest with
        | none => none
        | some r1 =>
          match skipWs r1 with
          | [] => none
          | c :: r2 =>
            if c = 0x3a then
              match parseJson fuel JsonPiece.value (skipWs r2) with
              | none => none
              | some r3 =>
                match skipWs r3 with
                | [] => none
                | d :: r4 =>
                  if d = 0x2c then parseJson fuel JsonPiece.members (skipWs r4)
                  else if d = 0x7d then some r4
                  else none
            else none
      else none
  | fuel + 1, JsonPiece.arrayBody, s =>
    match s with
    | [] => none
    | b :: rest =>
      if b = 0x5d then some rest
      else parseJson fuel JsonPiece.elements s
  | fuel + 1, JsonPiece.elements, s =>
    match parseJson fuel JsonPiece.value s with
    | none => none
    | some r =>
      match skipWs r with
      | [] => none
      | d :: r2 =>
        if d = 0x2c then parseJson fuel JsonPiece.elements (skipWs r2)
        else if d = 0x5d then some r2
        else none

/-- A byte string is a valid JSON object: it starts (after whitespace) with
`{` and parses completely as one JSON value. -/
def isValidJsonObject (s : List Nat) : Bool :=
  let t := skipWs s
  match t with
  | [] => false
  | b :: _ =>
    if b = 0x7b then
      match parseJson (2 * t.length + 2) JsonPiece.value t with
      | some r => skipWs r = ([] : List Nat)
      | none => false
    else false

/-- `Logger::MAX_QUEUE_SIZE`. -/
def MAX_QUEUE_SIZE : Nat := 1000

/-- Observable state of the async log queue: the queued records and the
lines written so far to stdout and stderr. -/
structure LoggerState where
  logQueue : List JsonObject
  stdoutLines : List String
  stderrLines : List String
deriving DecidableEq

/-- `Logger::log_async` (part_001:81-94): when the queue is at capacity,
pop the oldest entry and print a warning with `std::cout`; then enqueue the
new record. -/
def logAsync (st : LoggerState) (data : JsonObject) : LoggerState :=
  let st :=
    if st.logQueue.length ≥ MAX_QUEUE_SIZE then
      { st with
        logQueue := st.logQueue.drop 1
        stdoutLines := st.stdoutLines ++ ["⚠️  日志队列满，丢弃一条日志"] }
    else st
  { st with logQueue := st.logQueue ++ [data] }

/-- A logger whose queue is exactly at capacity, with nothing written yet. -/
def fullLogger : LoggerState :=
  { logQueue := List.replicate 1000 []
    stdoutLines := []
    stderrLines := [] }

/-- A trigger-info attribute map one of whose values contains a double-quote
byte (`0x22`). -/
def quoteAttrs : List (ByteStr × ByteStr) := [(strBytes "k", strBytes "a\x22b")]

/-- The `session_started` record built over `quoteAttrs`. -/
def quoteSessionLog : JsonObject :=
  createSessionStartLog (strBytes "r1") 1 (strBytes "route")
    (strBytes "route_add") quoteAttrs (strBytes "u")
    (strBytes "2024-01-01T00:00:00.000Z")

/-- The emitted record line for `quoteSessionLog`. -/
def quoteSessionLine : ByteStr := jsonToString quoteSessionLog

end ConvergeAnalyzeCpp

namespace ConvergeAnalyze

/-- A one-event unconverged session: triggered at 0, one route event at 100. -/
def exampleSession : ConvergenceSession :=
  (NewConvergenceSession 1 0
      [("interface", AttrValue.str "eth0")]).addRouteEvent 100 "路由删除"
    [("dst", AttrValue.str "10.0.0.0/24"),
     ("interface", AttrValue.str "eth0")]

/-- A monitor in `MONITORING` owning `exampleSession`. -/
def exampleMonitor : Monitor :=
  { NewNetemConvergenceMonitor 3000 "r1" with
    sessionCounter := 1
    currentSession := some exampleSession
    state := "MONITORING"
    totalNetemTriggers := 1
    totalRouteEvents := 1 }

/-- Attributes of a netem qdisc-add on `eth0`. -/
def netemAddInfo : Info :=
  [("interface", AttrValue.str "eth0"),
   ("ifindex", AttrValue.intv 2),
   ("handle", AttrValue.intv 0),
   ("parent", AttrValue.intv 0),
   ("kind", AttrValue.str "netem"),
   ("is_netem", AttrValue.boolv true)]

/-- Attributes of a qdisc-delete on `eth0` that carries no kind. -/
def delNoKindInfo : Info :=
  [("interface", AttrValue.str "eth0"),
   ("ifindex", AttrValue.intv 2),
   ("handle", AttrValue.intv 0),
   ("parent", AttrValue.intv 0),
   ("kind", AttrValue.str "unknown"),
   ("is_netem", AttrValue.boolv false)]

/-- An idle monitor whose ring buffer recorded a netem add on `eth0`. -/
def idleMonitorWithNetem : Monitor :=
  { NewNetemConvergenceMonitor 3000 "r1" with
    recentQdiscEvents := [{ timestamp := 0, type := "QDISC_ADD",
                            info := netemAddInfo }] }

end ConvergeAnalyze

namespace ConvergeAnalyze

/-- C1: for a not-yet-converged session, `CheckConvergence` returns converged
iff `idle_time ≥ quiet_period_ms`, where `idle_time = now − last_event_time`
when an event has been recorded and `now − trigger_time` otherwise; and when
it first returns converged it sets `convergence_time` to
`last_event_time − trigger_time` if some event arrived, else to `0`. -/
theorem checkConvergence_converged_iff (cs : ConvergenceSession)
    (quiet now : Int) (h : cs.isConverged = false) :
    ((cs.checkConvergence quiet now).2 = true ↔ quiet ≤ idleTime cs now) ∧
    (quiet ≤ idleTime cs now →
      (cs.checkConvergence quiet now).1.isConverged = true ∧
      (cs.checkConvergence quiet now).1.convergenceTime =
        some (match cs.lastRouteEventTime with
              | some t => t - cs.netemEventTime
              | none => 0)) := by
  unfold ConvergenceSession.checkConvergence idleTime
  rw [h]
  simp only [Bool.false_eq_true, if_false]
  cases hl : cs.lastRouteEventTime with
  | none =>
    dsimp only
    constructor
    · constructor
      · intro hres
        by_contra hlt
        rw [if_neg (by omega)] at hres
        exact Bool.false_ne_true hres
      · intro hle
        rw [if_pos (by omega)]
    · intro hle
      rw [if_pos (by omega)]
      simp
  | some t =>
    dsimp only
    constructor
    · constructor
      · intro hres
        by_contra hlt
        rw [if_neg (by omega)] at hres
        exact Bool.false_ne_true hres
      · intro hle
        rw [if_pos (by omega)]
    · intro hle
      rw [if_pos (by omega)]
      simp

/-- Concrete witness for the convergence-check theorem: a session triggered at
time 0 with one event at 100, checked at time 3200 with a 3000 ms quiet
period, is declared converged with convergence time 100. -/
theorem checkConvergence_converged_iff_witness :
    (NewConvergenceSession 1 0 []).isConverged = false ∧
    (((NewConvergenceSession 1 0 []).addRouteEvent 100 "路由添加"
        []).checkConvergence 3000 3200).2 = true := by
  refine ⟨rfl, ?_⟩
  have h := checkConvergence_converged_iff
    ((NewConvergenceSession 1 0 []).addRouteEvent 100 "路由添加" [])
    3000 3200 rfl
  exact h.1.mpr (by decide)

end ConvergeAnalyze

namespace ConvergeAnalyze

/-- `handleTriggerEvent` never touches the qdisc ring buffer. -/
theorem handleTriggerEvent_keeps_buffer (m : Monitor) (ts : Int)
    (et : String) (ti : Info) (src : String) :
    (m.handleTriggerEvent ts et ti src).1.recentQdiscEvents =
      m.recentQdiscEvents := by
  unfold Monitor.handleTriggerEvent Monitor.startNewSession
  cases m.currentSession <;> dsimp only <;> split_ifs <;> rfl

/-- C6: the qdisc ring buffer never exceeds 20 entries; pushing onto a full
buffer of 20 evicts exactly the oldest entry, keeping the insertion order of
the rest; and `handleQdiscEventFromTC` maintains its ring buffer exactly by
this push. -/
theorem ringBuffer_bound_and_eviction (buf : List QdiscEvent) (e : QdiscEvent)
    (m : Monitor) (now : Int) (info : Info) (et : String)
    (h : buf.length ≤ 20) :
    (pushRecentQdisc buf e).length ≤ 20 ∧
    (buf.length = 20 → pushRecentQdisc buf e = buf.drop 1 ++ [e]) ∧
    (m.handleQdiscEventFromTC now info et).1.recentQdiscEvents =
      pushRecentQdisc m.recentQdiscEvents
        { timestamp := now, type := et, info := info } := by
  refine ⟨?_, ?_, ?_⟩
  · unfold pushRecentQdisc
    dsimp only
    split_ifs with hlen <;> simp_all
  · intro h20
    unfold pushRecentQdisc
    dsimp only
    rw [if_pos (by simp [h20])]
    exact List.drop_append_of_le_length (by omega)
  · unfold Monitor.handleQdiscEventFromTC
    dsimp only
    split_ifs
    · split
      · split_ifs
        · rfl
        · exact handleTriggerEvent_keeps_buffer _ _ _ _ _
      · exact handleTriggerEvent_keeps_buffer _ _ _ _ _
    · rfl

/-- Concrete witness for the ring-buffer theorem: pushing onto a full buffer
of 20 events keeps the length at 20. -/
theorem ringBuffer_bound_and_eviction_witness :
    (List.replicate 20
      ({ timestamp := 0, type := "QDISC_ADD", info := [] } : QdiscEvent)).length
      ≤ 20 ∧
    (pushRecentQdisc
      (List.replicate 20 { timestamp := 0, type := "QDISC_ADD", info := [] })
      { timestamp := 1, type := "QDISC_DEL", info := [] }).length ≤ 20 := by
  refine ⟨by simp, ?_⟩
  exact (ringBuffer_bound_and_eviction
    (List.replicate 20 { timestamp := 0, type := "QDISC_ADD", info := [] })
    { timestamp := 1, type := "QDISC_DEL", info := [] }
    (NewNetemConvergenceMonitor 3000 "r1") 0 [] "QDISC_ADD" (by simp)).1

/-- C5: a qdisc event is classified netem-related iff its `is_netem` flag is
true, or it is a delete and some ring-buffer entry on the same interface has
`is_netem = true`. -/
theorem isNetemRelated_iff (ncm : Monitor) (qdiscInfo : Info)
    (eventType : String) :
    ncm.isNetemRelatedEvent qdiscInfo eventType = true ↔
      getBool qdiscInfo "is_netem" = some true ∨
      (eventType = "QDISC_DEL" ∧ ∃ e ∈ ncm.recentQdiscEvents,
        getStr e.info "interface" = some (getStrD qdiscInfo "interface") ∧
        getBool e.info "is_netem" = some true) := by
  unfold Monitor.isNetemRelatedEvent
  split_ifs with h1 h2
  · simp [h1]
  · simp only [h1, false_or, h2, true_and]
    rw [List.any_eq_true]
    constructor
    · rintro ⟨e, he, hp⟩
      rw [List.mem_reverse] at he
      rw [Bool.and_eq_true, decide_eq_true_eq, decide_eq_true_eq] at hp
      exact ⟨e, he, hp⟩
    · rintro ⟨e, he, hp⟩
      refine ⟨e, List.mem_reverse.mpr he, ?_⟩
      rw [Bool.and_eq_true, decide_eq_true_eq, decide_eq_true_eq]
      exact hp
  · simp [h1, h2]

/-- Concrete witness for the netem-classification theorem: a kindless
`QDISC_DEL` on `eth0` is netem-related because the ring buffer recorded a
netem add on `eth0`. -/
theorem isNetemRelated_iff_witness :
    idleMonitorWithNetem.isNetemRelatedEvent delNoKindInfo "QDISC_DEL" =
      true := by
  refine (isNetemRelated_iff idleMonitorWithNetem delNoKindInfo
    "QDISC_DEL").mpr (Or.inr ⟨rfl, ?_⟩)
  exact ⟨{ timestamp := 0, type := "QDISC_ADD", info := netemAddInfo },
    by simp [idleMonitorWithNetem], by decide⟩

/-- C7: a qdisc message whose kind is `noqueue` is dropped by the TC hook
before any processing: no record is emitted and the monitor state (session,
counters, ring buffer) is unchanged. -/
theorem noqueue_dropped (ncm : Monitor) (now : Int) (action : Nat)
    (obj : TcObject) (interfaceName : String) (h : obj.kind = "noqueue") :
    ncm.hookFunc now action obj interfaceName = (ncm, []) := by
  unfold Monitor.hookFunc
  rw [if_pos h]

/-- Concrete witness for the noqueue theorem. -/
theorem noqueue_dropped_witness :
    ({ ifindex := 2, handle := 0, parent := 0,
       kind := "noqueue" } : TcObject).kind = "noqueue" ∧
    exampleMonitor.hookFunc 200 RTM_NEWQDISC
      { ifindex := 2, handle := 0, parent := 0, kind := "noqueue" } "eth0" =
      (exampleMonitor, []) :=
  ⟨rfl, noqueue_dropped exampleMonitor 200 RTM_NEWQDISC
    { ifindex := 2, handle := 0, parent := 0, kind := "noqueue" } "eth0" rfl⟩

end ConvergeAnalyze

namespace ConvergeAnalyze

/-- C2: while the monitor is `MONITORING` an unconverged session, a route
event or a netem-related qdisc event never starts a new session — the session
counter and both trigger counters are unchanged — and the event is appended
to the current session. -/
theorem monitoring_consumes_events (ncm : Monitor) (cs : ConvergenceSession)
    (ts now : Int) (eventType : String) (routeInfo qdiscInfo : Info)
    (qdiscEventType : String)
    (hst : ncm.state = "MONITORING") (hcur : ncm.currentSession = some cs)
    (hconv : cs.isConverged = false) :
    ((ncm.handleRouteEvent ts eventType routeInfo).1.sessionCounter =
        ncm.sessionCounter ∧
      (ncm.handleRouteEvent ts eventType routeInfo).1.totalNetemTriggers =
        ncm.totalNetemTriggers ∧
      (ncm.handleRouteEvent ts eventType routeInfo).1.totalRouteTriggers =
        ncm.totalRouteTriggers ∧
      (ncm.handleRouteEvent ts eventType routeInfo).1.currentSession =
        some (cs.addRouteEvent ts eventType routeInfo)) ∧
    (Monitor.isNetemRelatedEvent
        { ncm with
          recentQdiscEvents :=
            pushRecentQdisc ncm.recentQdiscEvents
              { timestamp := now, type := qdiscEventType, info := qdiscInfo } }
        qdiscInfo qdiscEventType = true →
      (ncm.handleQdiscEventFromTC now qdiscInfo
          qdiscEventType).1.sessionCounter = ncm.sessionCounter ∧
      (ncm.handleQdiscEventFromTC now qdiscInfo
          qdiscEventType).1.totalNetemTriggers = ncm.totalNetemTriggers ∧
      (ncm.handleQdiscEventFromTC now qdiscInfo
          qdiscEventType).1.totalRouteTriggers = ncm.totalRouteTriggers ∧
      (ncm.handleQdiscEventFromTC now qdiscInfo
          qdiscEventType).1.currentSession =
        some (cs.addRouteEvent now
          ("Netem事件(" ++ qdiscEventType ++ ")") qdiscInfo)) := by
  constructor
  · unfold Monitor.handleRouteEvent
    simp [hst, hcur, hconv]
  · intro hrel
    unfold Monitor.handleQdiscEventFromTC
    simp only [hrel, if_true]
    simp [hcur, hst, hconv]

/-- Concrete witness for the event-consumption theorem: a route event while
`exampleMonitor` is monitoring leaves the session counter at 1. -/
theorem monitoring_consumes_events_witness :
    (exampleMonitor.state = "MONITORING" ∧
      exampleMonitor.currentSession = some exampleSession ∧
      exampleSession.isConverged = false) ∧
    (exampleMonitor.handleRouteEvent 200 "路由添加" []).1.sessionCounter =
      exampleMonitor.sessionCounter :=
  ⟨⟨rfl, rfl, rfl⟩,
    (monitoring_consumes_events exampleMonitor exampleSession 200 200
      "路由添加" [] [] "QDISC_ADD" rfl rfl rfl).1.1⟩

/-- `startNewSession` always establishes the state/session invariant. -/
theorem stateInv_startNewSession (m : Monitor) (ts : Int) (et : String)
    (ti : Info) (src : String) :
    stateInv (m.startNewSession ts et ti src).1 := by
  unfold Monitor.startNewSession stateInv
  dsimp only
  split_ifs <;> simp

/-- `handleTriggerEvent` preserves the state/session invariant. -/
theorem stateInv_handleTriggerEvent (m : Monitor) (h : stateInv m) (ts : Int)
    (et : String) (ti : Info) (src : String) :
    stateInv (m.handleTriggerEvent ts et ti src).1 := by
  unfold Monitor.handleTriggerEvent
  split
  · split_ifs
    · exact h
    · exact stateInv_startNewSession m ts et ti src
  · exact stateInv_startNewSession m ts et ti src

/-- `finishCurrentSession` preserves the state/session invariant. -/
theorem stateInv_finishCurrentSession (m : Monitor) (h : stateInv m)
    (now : Int) : stateInv (m.finishCurrentSession now).1 := by
  unfold Monitor.finishCurrentSession
  split
  · exact h
  · simp [stateInv]

/-- `forceFinishSession` preserves the state/session invariant. -/
theorem stateInv_forceFinishSession (m : Monitor) (h : stateInv m)
    (now : Int) : stateInv (m.forceFinishSession now).1 := by
  unfold Monitor.forceFinishSession
  split
  · exact h
  · apply stateInv_finishCurrentSession
    unfold stateInv at h ⊢
    simp_all

/-- One convergence tick preserves the state/session invariant. -/
theorem stateInv_convergenceTick (m : Monitor) (h : stateInv m) (now : Int) :
    stateInv (m.convergenceTick now).1 := by
  unfold Monitor.convergenceTick
  split
  · exact h
  · rename_i cs hc
    dsimp only
    split_ifs with hcond hres
    · apply stateInv_finishCurrentSession
      unfold stateInv
      simp_all
    · unfold stateInv
      simp_all
    · exact h

/-- `handleRouteEvent` preserves the state/session invariant. -/
theorem stateInv_handleRouteEvent (m : Monitor) (h : stateInv m) (ts : Int)
    (et : String) (ri : Info) : stateInv (m.handleRouteEvent ts et ri).1 := by
  unfold Monitor.handleRouteEvent
  split_ifs with hc h1 hns
  · exact stateInv_handleTriggerEvent m h ts et _ "route"
  · exact stateInv_handleTriggerEvent m h ts et _ "route"
  · cases m.currentSession <;> exact h
  · cases hcs : m.currentSession with
    | none => exact h
    | some cs =>
      dsimp only
      unfold stateInv
      simp_all

/-- `handleQdiscEventFromTC` preserves the state/session invariant. -/
theorem stateInv_handleQdiscEventFromTC (m : Monitor) (h : stateInv m)
    (now : Int) (qi : Info) (et : String) :
    stateInv (m.handleQdiscEventFromTC now qi et).1 := by
  unfold Monitor.handleQdiscEventFromTC
  dsimp only
  have h' : stateInv
      { m with
        recentQdiscEvents :=
          pushRecentQdisc m.recentQdiscEvents
            { timestamp := now, type := et, info := qi } } := by
    unfold stateInv at h ⊢
    simpa using h
  split_ifs with hrel
  · split
    · rename_i cs hcs
      split_ifs with hcond
      · unfold stateInv
        simp_all
      · exact stateInv_handleTriggerEvent _ h' now et qi "netem"
    · exact stateInv_handleTriggerEvent _ h' now et qi "netem"
  · exact h'

/-- C4: every session-engine operation (trigger handling, in-session route or
qdisc events, the convergence tick, finishing and force-finishing) preserves
`state = "MONITORING" ⇔ current session present`; single currency of the
session is structural (`currentSession : Option`). -/
theorem stateInv_preserved (m : Monitor) (ts now : Int) (et src : String)
    (ti ri qi : Info) (qet : String) (h : stateInv m) :
    stateInv (m.handleTriggerEvent ts et ti src).1 ∧
    stateInv (m.handleRouteEvent ts et ri).1 ∧
    stateInv (m.handleQdiscEventFromTC now qi qet).1 ∧
    stateInv (m.convergenceTick now).1 ∧
    stateInv (m.finishCurrentSession now).1 ∧
    stateInv (m.forceFinishSession now).1 :=
  ⟨stateInv_handleTriggerEvent m h ts et ti src,
   stateInv_handleRouteEvent m h ts et ri,
   stateInv_handleQdiscEventFromTC m h now qi qet,
   stateInv_convergenceTick m h now,
   stateInv_finishCurrentSession m h now,
   stateInv_forceFinishSession m h now⟩

/-- Concrete witness for invariant preservation: the fresh idle monitor
satisfies the invariant, and still does after a route trigger. -/
theorem stateInv_preserved_witness :
    stateInv (NewNetemConvergenceMonitor 3000 "r1") ∧
    stateInv ((NewNetemConvergenceMonitor 3000 "r1").handleRouteEvent 0
      "路由添加" []).1 := by
  have h0 : stateInv (NewNetemConvergenceMonitor 3000 "r1") := by
    unfold stateInv NewNetemConvergenceMonitor
    simp
  exact ⟨h0, (stateInv_preserved (NewNetemConvergenceMonitor 3000 "r1") 0 0
    "路由添加" "route" [] [] [] "QDISC_ADD" h0).2.1⟩

end ConvergeAnalyze

namespace ConvergeAnalyze

/-- The effect of `CheckConvergence(0)` on an unconverged session whose idle
time is non-negative: it converges, stamping `convergence_time` with
`last_event_time − trigger_time` when an event was recorded and `0`
otherwise. -/
theorem checkConvergence_force (s : ConvergenceSession) (now : Int)
    (hconv : s.isConverged = false) (hnow : 0 ≤ idleTime s now) :
    (s.checkConvergence 0 now).1 =
      { s with
        convergenceCheckCount := s.convergenceCheckCount + 1
        isConverged := true
        convergenceDetectedTime := some now
        convergenceTime :=
          some ((s.lastRouteEventTime.map
            fun t => t - s.netemEventTime).getD 0) } := by
  unfold ConvergenceSession.checkConvergence
  rw [hconv]
  simp only [Bool.false_eq_true, if_false]
  unfold idleTime at hnow
  cases hl : s.lastRouteEventTime with
  | none =>
    rw [hl] at hnow
    dsimp only at hnow ⊢
    rw [if_pos (by omega)]
    simp [hl]
  | some t =>
    rw [hl] at hnow
    dsimp only at hnow ⊢
    rw [if_pos (by omega)]
    simp [hl]

/-- Counterexample to C3 as stated: force-finishing `exampleMonitor`'s
unconverged session (trigger at 0, one event at 100) at shutdown time 500
completes it with `convergence_time_ms = 100` — `last_event_time −
trigger_time` — not 0. -/
theorem forceFinish_zero_counterexample :
    exampleSession.isConverged = false ∧
    ((exampleMonitor.forceFinishSession 500).1.completedSessions.map
      fun s => s.convergenceTime) = [some 100] ∧
    (exampleMonitor.forceFinishSession 500).2 =
      [LogRecord.sessionCompleted 1 (some 100) 1 500 3000
        [("interface", AttrValue.str "eth0")]] ∧
    some (100 : Int) ≠ some (0 : Int) := by
  refine ⟨rfl, by decide, by decide, by decide⟩

/-- C3 amended: on shutdown, force-finishing an in-progress unconverged
session (at a shutdown instant not before the session's last activity) marks
it converged, sets `convergence_time_ms` to `last_event_time − trigger_time`
when at least one event was recorded and to `0` otherwise, and emits a
`session_completed` record for it. -/
theorem forceFinish_completes_session (m : Monitor) (s : ConvergenceSession)
    (now : Int) (hcur : m.currentSession = some s)
    (hconv : s.isConverged = false) (hnow : 0 ≤ idleTime s now) :
    (m.forceFinishSession now).1.currentSession = none ∧
    (m.forceFinishSession now).1.completedSessions =
      m.completedSessions ++ [(s.checkConvergence 0 now).1] ∧
    (s.checkConvergence 0 now).1.isConverged = true ∧
    (s.checkConvergence 0 now).1.convergenceTime =
      some ((s.lastRouteEventTime.map fun t => t - s.netemEventTime).getD 0) ∧
    (m.forceFinishSession now).2 =
      [LogRecord.sessionCompleted s.sessionID
        (some ((s.lastRouteEventTime.map fun t => t - s.netemEventTime).getD 0))
        s.routeEvents.length (now - s.netemEventTime)
        m.convergenceThresholdMs s.netemInfo] := by
  have hs' := checkConvergence_force s now hconv hnow
  unfold Monitor.forceFinishSession
  rw [hcur]
  dsimp only
  rw [hs']
  unfold Monitor.finishCurrentSession
  dsimp only
  refine ⟨rfl, rfl, rfl, rfl, ?_⟩
  unfold ConvergenceSession.getSessionDuration
  dsimp only

/-- Concrete witness for the amended force-finish theorem. -/
theorem forceFinish_completes_session_witness :
    (exampleMonitor.currentSession = some exampleSession ∧
      exampleSession.isConverged = false ∧ 0 ≤ idleTime exampleSession 500) ∧
    (exampleMonitor.forceFinishSession 500).1.currentSession = none :=
  ⟨⟨rfl, rfl, by decide⟩,
    (forceFinish_completes_session exampleMonitor exampleSession 500 rfl rfl
      (by decide)).1⟩

/-- In a sorted list, the head is a lower bound. -/
theorem sorted_head?_le {l : List Int} (hs : l.Sorted (· ≤ ·)) {f : Int}
    (hf : l.head? = some f) : ∀ a ∈ l, f ≤ a := by
  cases l with
  | nil => cases hf
  | cons x xs =>
    simp only [List.head?_cons, Option.some.injEq] at hf
    subst hf
    intro a ha
    rcases List.mem_cons.mp ha with rfl | hmem
    · exact le_refl a
    · exact List.rel_of_sorted_cons hs a hmem

/-- In a sorted list, the last element is an upper bound. -/
theorem sorted_le_getLast? :
    ∀ {l : List Int}, l.Sorted (· ≤ ·) → ∀ {a : Int}, a ∈ l →
      ∀ {g : Int}, l.getLast? = some g → a ≤ g := by
  intro l
  induction l with
  | nil =>
    intro _ a ha
    cases ha
  | cons x xs ih =>
    intro hs a ha g hg
    cases xs with
    | nil =>
      simp only [List.getLast?_singleton, Option.some.injEq] at hg
      rcases List.mem_cons.mp ha with rfl | hmem
      · omega
      · cases hmem
    | cons y ys =>
      rw [List.getLast?_cons_cons] at hg
      rcases List.mem_cons.mp ha with rfl | hmem
      · have hgmem : g ∈ y :: ys :=
          List.mem_of_mem_getLast? (by simp [hg])
        exact List.rel_of_sorted_cons hs g hgmem
      · exact ih hs.of_cons hmem hg

/-- C9: in the `monitoring_completed` summary, the fastest/slowest fields are
the minimum and maximum of the convergence times, the average field is their
arithmetic mean, the standard-deviation field (modelled by its square, the
sample variance) is present iff at least two times exist, and the
fastest/slowest/mean fields are omitted (`none`) exactly when no convergence
times exist. -/
theorem convergence_stats_correct (times : List Int) :
    ((buildConvergenceStats times).fastest_convergence_ms.isSome = true ↔
      times ≠ []) ∧
    ((buildConvergenceStats times).slowest_convergence_ms.isSome = true ↔
      times ≠ []) ∧
    ((buildConvergenceStats times).avg_convergence_time_ms =
      if times = [] then none else some (listMean times)) ∧
    (∀ f, (buildConvergenceStats times).fastest_convergence_ms = some f →
      f ∈ times ∧ ∀ x ∈ times, f ≤ x) ∧
    (∀ g, (buildConvergenceStats times).slowest_convergence_ms = some g →
      g ∈ times ∧ ∀ x ∈ times, x ≤ g) ∧
    ((buildConvergenceStats times).convergence_std_deviation_sq =
      if 2 ≤ times.length then some (sampleVariance times) else none) := by
  by_cases hne : times = []
  · subst hne
    refine ⟨?_, ?_, ?_, ?_, ?_, ?_⟩ <;> simp [buildConvergenceStats]
  · have hlen : 0 < times.length := List.length_pos.mpr hne
    have hperm : List.Perm (List.insertionSort (· ≤ ·) times) times :=
      List.perm_insertionSort _ _
    have hsort : (List.insertionSort (· ≤ ·) times).Sorted (· ≤ ·) :=
      List.sorted_insertionSort _ _
    have hsne : List.insertionSort (· ≤ ·) times ≠ [] := by
      intro hnil
      rw [← hperm.length_eq, hnil] at hlen
      simp at hlen
    unfold buildConvergenceStats
    rw [if_pos hlen]
    dsimp only
    refine ⟨?_, ?_, ?_, ?_, ?_, ?_⟩
    · rw [List.head?_isSome]
      exact ⟨fun _ => hne, fun _ => hsne⟩
    · rw [List.getLast?_isSome]
      exact ⟨fun _ => hne, fun _ => hsne⟩
    · rw [if_neg hne]
      rfl
    · intro f hf
      have hfs : f ∈ List.insertionSort (· ≤ ·) times :=
        List.mem_of_mem_head? (by simp [hf])
      refine ⟨hperm.subset hfs, ?_⟩
      intro x hx
      exact sorted_head?_le hsort hf x (hperm.mem_iff.mpr hx)
    · intro g hg
      have hgs : g ∈ List.insertionSort (· ≤ ·) times :=
        List.mem_of_mem_getLast? (by simp [hg])
      refine ⟨hperm.subset hgs, ?_⟩
      intro x hx
      exact sorted_le_getLast? hsort (hperm.mem_iff.mpr hx) hg
    · split_ifs with h1 h2 h2
      · rfl
      · omega
      · omega
      · rfl

/-- Concrete witness for the statistics theorem: `[5, 1, 3]` is nonempty, so
the fastest-convergence field is present. -/
theorem convergence_stats_correct_witness :
    ([5, 1, 3] : List Int) ≠ [] ∧
    (buildConvergenceStats [5, 1, 3]).fastest_convergence_ms.isSome = true :=
  ⟨by decide, (convergence_stats_correct [5, 1, 3]).1.mpr (by decide)⟩

end ConvergeAnalyze

namespace ConvergeAnalyzeCpp

/-- `log_async` never writes to stderr. -/
theorem logAsync_stderr (st : LoggerState) (data : JsonObject) :
    (logAsync st data).stderrLines = st.stderrLines := by
  unfold logAsync
  dsimp only
  split_ifs <;> rfl

/-- The full logger's queue is exactly at capacity. -/
theorem fullLogger_length : fullLogger.logQueue.length = MAX_QUEUE_SIZE := by
  unfold fullLogger MAX_QUEUE_SIZE
  dsimp only
  rw [List.length_replicate]

/-- Counterexample to C8 as stated: enqueueing into a full queue leaves
stderr untouched — the one-line warning goes to stdout (`std::cout`), not to
stderr. -/
theorem logAsync_stderr_counterexample :
    fullLogger.logQueue.length = MAX_QUEUE_SIZE ∧
    (logAsync fullLogger [(strBytes "event_type",
      JsonValue.str (strBytes "x"))]).stderrLines = [] ∧
    (logAsync fullLogger [(strBytes "event_type",
      JsonValue.str (strBytes "x"))]).stdoutLines =
      ["⚠️  日志队列满，丢弃一条日志"] := by
  refine ⟨fullLogger_length, ?_, ?_⟩
  · rw [logAsync_stderr]
    rfl
  · unfold logAsync
    rw [if_pos (le_of_eq fullLogger_length.symm)]
    rfl

/-- C8 amended: the async-log queue is bounded at 1000; an enqueue at
capacity discards exactly the oldest queued record, still enqueues the new
record, and writes the one-line warning to stdout (stderr is untouched). -/
theorem logAsync_overflow (st : LoggerState) (data : JsonObject)
    (h : st.logQueue.length = MAX_QUEUE_SIZE) :
    (logAsync st data).logQueue = st.logQueue.drop 1 ++ [data] ∧
    (logAsync st data).logQueue.length = MAX_QUEUE_SIZE ∧
    (logAsync st data).stdoutLines =
      st.stdoutLines ++ ["⚠️  日志队列满，丢弃一条日志"] ∧
    (logAsync st data).stderrLines = st.stderrLines ∧
    (∀ (st' : LoggerState) (d' : JsonObject),
      st'.logQueue.length ≤ MAX_QUEUE_SIZE →
      (logAsync st' d').logQueue.length ≤ MAX_QUEUE_SIZE) := by
  refine ⟨?_, ?_, ?_, logAsync_stderr st data, ?_⟩
  · unfold logAsync
    rw [if_pos (le_of_eq h.symm)]
  · unfold logAsync
    rw [if_pos (le_of_eq h.symm)]
    dsimp only
    simp only [List.length_append, List.length_drop, List.length_cons,
      List.length_nil]
    unfold MAX_QUEUE_SIZE at h ⊢
    omega
  · unfold logAsync
    rw [if_pos (le_of_eq h.symm)]
  · intro st' d' h'
    unfold logAsync
    dsimp only
    split_ifs with hfull
    · simp only [List.length_append, List.length_drop, List.length_cons,
        List.length_nil]
      unfold MAX_QUEUE_SIZE at h' ⊢
      omega
    · simp only [List.length_append, List.length_cons, List.length_nil]
      simp only [not_le] at hfull
      unfold MAX_QUEUE_SIZE at hfull ⊢
      omega

/-- Concrete witness for the queue-overflow theorem: the full logger stays at
1000 entries across an enqueue. -/
theorem logAsync_overflow_witness :
    fullLogger.logQueue.length = MAX_QUEUE_SIZE ∧
    (logAsync fullLogger []).logQueue.length = MAX_QUEUE_SIZE :=
  ⟨fullLogger_length, (logAsync_overflow fullLogger [] fullLogger_length).2.1⟩

set_option maxRecDepth 40000 in
/-- Counterexample to C10's conclusion: with an attrs value containing a
double-quote byte, the emitted `session_started` record line is still a
valid JSON object — the raw-concatenated nested serialization is escaped
when embedded as a top-level string value. -/
theorem quoteLine_valid_counterexample :
    (0x22 ∈ strBytes "a\x22b") ∧
    isValidJsonObject quoteSessionLine = true :=
  ⟨by decide, by decide⟩

set_option maxRecDepth 40000 in
/-- C10 amended: top-level string values are JSON-escaped while the nested
trigger-info string is built by raw concatenation with no escaping; because
that raw serialization is embedded as a top-level string value and escaped on
emission, the emitted record line remains a valid JSON object even when an
attrs value contains a double quote — it is the `trigger_info` field's
string content that is not a valid JSON object. -/
theorem quoteLine_nested_invalid :
    quoteSessionLog.lookup (strBytes "trigger_info") =
      some (JsonValue.str (serializeInfoRaw quoteAttrs)) ∧
    isValidJsonObject quoteSessionLine = true ∧
    isValidJsonObject (serializeInfoRaw quoteAttrs) = false ∧
    escapeJsonString (strBytes "a\x22b") = strBytes "a\\\x22b" :=
  ⟨by decide, by decide, by decide, by decide⟩

end ConvergeAnalyzeCpp
